import Mathlib

/-!
# Ward Admission Allocation Engine — verification of the spec's claims

Shallow embedding of the allocation core of the hospital_management
repository:

* `suggestWard` embeds `distributionService.suggestWard`
  (src/frontend/src/services/distributionService.ts, lines 33–67).
* `handleAutoDistribute` embeds the batch distribution loop
  (src/frontend/src/pages/journals/Distribution.tsx, lines 90–126).
* `commitAssignment` models the backend assignment transaction, which is
  not part of the frontend sources; it follows the spec's §4.2.

Modelling conventions, matching the source:

* `max_capacity` and `current_occupancy` are natural numbers.  The
  source's `normalizeWard` branch is inert (`typeof w.current_occupancy
  === 'object'` is never true for a number/undefined field), so
  `normalizedWards` holds the input wards themselves and
  `wards[normalizedWards.indexOf(found)]` returns the found ward; the
  embedding therefore returns the found ward directly.
* JavaScript `null`/`undefined` diagnosis ids are both `none`;
  a number `d` is `some d`.  The truthiness test `patientDiagnosisId &&`
  is false exactly on `none` and `some 0`.
* The occupancy-ratio comparison `(occ / cap) * 100 < (occ' / cap') * 100`
  is modelled exactly over the rationals by cross-multiplication when
  both capacities are positive (the factor 100 cancels), and by the
  IEEE rules for `NaN` (`0/0`) and `+∞` (`n/0`, `n > 0`) when a capacity
  is zero: a comparison involving `NaN` is false, and `x < +∞` is true
  exactly for finite `x`.
-/

/-- A ward as read by the distribution service: `id`, optional preferred
`diagnosis_id`, `max_capacity`, `current_occupancy`. -/
structure Ward where
  id : Nat
  diagnosis_id : Option Nat
  max_capacity : Nat
  current_occupancy : Nat
deriving Repr, DecidableEq

/-- A patient as read by the distribution service: only `id` and the
optional `diagnosis_id` matter to the allocation logic. -/
structure Patient where
  id : Nat
  diagnosis_id : Option Nat
deriving Repr, DecidableEq

/-- JavaScript truthiness of `patientDiagnosisId`: `null`, `undefined`
and `0` are falsy. -/
def truthyId : Option Nat → Bool
  | none => false
  | some d => d != 0

/-- The rule-1 predicate of `suggestWard` (lines 46–51): patient id is
truthy, the ward's `diagnosis_id === patientDiagnosisId`, and the ward
has free capacity. -/
def diagFree (pd : Option Nat) (w : Ward) : Bool :=
  truthyId pd && w.diagnosis_id == pd &&
    decide (w.current_occupancy < w.max_capacity)

/-- The strict comparison `(a.occ / a.cap) * 100 < (b.occ / b.cap) * 100`
used by the `reduce` of rule 3 (lines 60–64), with IEEE semantics at a
zero capacity (see the header). -/
def ratioLt (a b : Ward) : Bool :=
  if a.max_capacity == 0 then
    -- a's ratio is NaN (occ = 0) or +∞ (occ > 0); neither is < anything
    false
  else if b.max_capacity == 0 then
    -- b's ratio is NaN (occ = 0, comparison false) or +∞ (finite a < +∞)
    b.current_occupancy != 0
  else
    decide (a.current_occupancy * b.max_capacity <
      b.current_occupancy * a.max_capacity)

/-- One step of the rule-3 `reduce`: keep the accumulator unless the next
ward's occupancy ratio is strictly smaller. -/
def minStep (m w : Ward) : Ward :=
  if ratioLt w m then w else m

/-- Rules 2 and 3 of `suggestWard` (lines 55–66): first completely empty
ward, else the `reduce` over the whole list (no free-capacity filter). -/
def fallbackWard : List Ward → Option Ward
  | [] => none
  | w0 :: rest =>
    match (w0 :: rest).find? (fun w => w.current_occupancy == 0) with
    | some w => some w
    | none => some (rest.foldl minStep w0)

/-- Embedding of `distributionService.suggestWard` (lines 33–67):
`null` on an empty list, else rule 1 (first diagnosis-matched ward with
free capacity), else rule 2 (first empty ward), else rule 3 (first ward
of minimum occupancy ratio via `reduce`). -/
def suggestWard (patient : Patient) (wards : List Ward) : Option Ward :=
  match wards with
  | [] => none
  | w0 :: rest =>
    match (w0 :: rest).find? (diagFree patient.diagnosis_id) with
    | some w => some w
    | none => fallbackWard (w0 :: rest)

/-!
## Batch distribution (Distribution.tsx, `handleAutoDistribute`)

The handler iterates over a copy of `unassignedPatients` and, for each
patient, calls `suggestWard(patient, wards)`.  `wards` is the React
state binding captured by the handler's closure: `setWards` schedules a
state update for future renders but never reassigns that binding, so
every iteration of the loop reads the pre-run snapshot.  The embedding
makes this explicit by passing the same `wards0` list to every step
while separately threading the React state (`reactWards`,
`reactUnassigned`) through the functional `setState` updates of the
success branch.

The external API call `updatePatientApiV1PatientsPatientIdPut` is a
parameter: a function from a server state and the `(patientId, wardId)`
pair to `some` new server state (success) or `none` (the call throws,
landing in the handler's inner `catch`, which logs and continues).
-/

/-- The observable state threaded through the auto-distribution loop:
the external server state, the React state (`reactUnassigned`,
`reactWards`), and logs of every policy evaluation (`suggestions`),
every API commit attempt (`attempts`), the successful assignments, the
patients whose commit threw (`failed`), and every patient the loop
visited (`processed`). -/
structure RunState (σ : Type) where
  server : σ
  reactUnassigned : List Patient
  reactWards : List Ward
  suggestions : List (Nat × Option Nat)
  attempts : List (Nat × Nat)
  assigned : List (Nat × Nat)
  failed : List Nat
  processed : List Nat
deriving Repr

/-- The `setWards` functional update on success (Distribution.tsx lines
107–111): increment `current_occupancy` of the ward with the given id. -/
def bumpOccupancy (wardId : Nat) (ws : List Ward) : List Ward :=
  ws.map (fun w =>
    if w.id == wardId then
      { w with current_occupancy := w.current_occupancy + 1 }
    else w)

/-- One iteration of the `for (const patient of patientsToAssign)` loop
(Distribution.tsx lines 97–117).  `wards0` is the closure-captured
snapshot used by every `suggestWard` call. -/
def distributeStep {σ : Type} (updatePatient : σ → Nat → Nat → Option σ)
    (wards0 : List Ward) (st : RunState σ) (patient : Patient) :
    RunState σ :=
  match suggestWard patient wards0 with
  | none =>
    -- `if (suggestedWard)` is false: the patient is skipped silently
    { st with
      processed := st.processed ++ [patient.id]
      suggestions := st.suggestions ++ [(patient.id, none)] }
  | some w =>
    match updatePatient st.server patient.id w.id with
    | some srv =>
      { st with
        server := srv
        processed := st.processed ++ [patient.id]
        suggestions := st.suggestions ++ [(patient.id, some w.id)]
        attempts := st.attempts ++ [(patient.id, w.id)]
        assigned := st.assigned ++ [(patient.id, w.id)]
        reactUnassigned := st.reactUnassigned.filter
          (fun q => q.id != patient.id)
        reactWards := bumpOccupancy w.id st.reactWards }
    | none =>
      -- the API call threw; the inner catch logs the failure and the
      -- loop continues with the next patient
      { st with
        processed := st.processed ++ [patient.id]
        suggestions := st.suggestions ++ [(patient.id, some w.id)]
        attempts := st.attempts ++ [(patient.id, w.id)]
        failed := st.failed ++ [patient.id] }

/-- Embedding of `handleAutoDistribute` (Distribution.tsx lines 90–126):
fold the loop body over the copied unassigned-patient list, starting
from the captured React state. -/
def handleAutoDistribute {σ : Type}
    (updatePatient : σ → Nat → Nat → Option σ)
    (unassignedPatients : List Patient) (wards : List Ward) (server0 : σ) :
    RunState σ :=
  unassignedPatients.foldl (distributeStep updatePatient wards)
    ⟨server0, unassignedPatients, wards, [], [], [], [], []⟩

/-- Modelled from the spec: the backend assignment transaction behind
`updatePatientApiV1PatientsPatientIdPut` is not among the frontend
sources.  Following §4.2, it re-reads the authoritative ward occupancy
inside one atomic unit, fails with `CapacityExceeded` when
`currentOccupancy == maxCapacity` at commit time, fails with `NotFound`
when the ward no longer exists, and on success increments the target
occupancy (both failures surface to the frontend as a thrown error,
hence `none`).  The patient's `wardId` write is recorded by the
caller's `assigned` log. -/
def commitAssignment (server : List Ward) (_patientId wardId : Nat) :
    Option (List Ward) :=
  match server.find? (fun w => w.id == wardId) with
  | none => none
  | some w =>
    if w.current_occupancy < w.max_capacity then
      some (bumpOccupancy wardId server)
    else none

/-- Two successive calls of `suggestWard` on the same snapshot.  The
source function only reads its arguments (`map`, `find`, `indexOf` and
`reduce` allocate fresh values and mutate nothing), so the snapshot
passed to the second call is the unchanged snapshot seen by the first;
the embedding renders this as the same list value. -/
def callTwice (p : Patient) (ws : List Ward) : Option Ward × Option Ward :=
  (suggestWard p ws, suggestWard p ws)

-- Scenario sanity checks (spec §8), kept as anonymous examples.
example : suggestWard ⟨1, some 5⟩
    [⟨1, some 5, 2, 2⟩, ⟨2, none, 3, 0⟩] = some ⟨2, none, 3, 0⟩ := by decide
example : suggestWard ⟨1, some 7⟩
    [⟨1, some 7, 4, 1⟩] = some ⟨1, some 7, 4, 1⟩ := by decide
example : suggestWard ⟨1, none⟩
    [⟨1, none, 2, 2⟩, ⟨2, none, 2, 2⟩] = some ⟨1, none, 2, 2⟩ := by decide

/-!
## Helper lemmas
-/

/-- The rule-3 `reduce` yields an element of the reduced list. -/
theorem foldl_minStep_mem (rest : List Ward) (w0 : Ward) :
    rest.foldl minStep w0 ∈ w0 :: rest := by
  induction rest generalizing w0 with
  | nil => simp
  | cons a l ih =>
    rw [List.foldl_cons]
    rcases List.mem_cons.mp (ih (minStep w0 a)) with h | h
    · rw [h]
      unfold minStep
      split
      · exact List.mem_cons_of_mem _ (List.mem_cons_self _ _)
      · exact List.mem_cons_self _ _
    · exact List.mem_cons_of_mem _ (List.mem_cons_of_mem _ h)

/-- If no element of `l` has a strictly smaller ratio than the
accumulator, the rule-3 `reduce` keeps the accumulator. -/
theorem foldl_minStep_stay (l : List Ward) (m : Ward)
    (h : ∀ x ∈ l, ratioLt x m = false) : l.foldl minStep m = m := by
  induction l with
  | nil => rfl
  | cons a l ih =>
    simp only [List.foldl_cons, minStep, h a (by simp)]
    simp only [Bool.false_eq_true, if_false]
    exact ih (fun x hx => h x (by simp [hx]))

/-- `find?` returns the first element satisfying the predicate. -/
theorem find?_first (p : Ward → Bool) (l1 l2 : List Ward) (w : Ward)
    (h1 : ∀ x ∈ l1, p x = false) (hw : p w = true) :
    (l1 ++ w :: l2).find? p = some w := by
  induction l1 with
  | nil => simp [List.find?_cons, hw]
  | cons a l ih =>
    have ha : p a = false := h1 a (by simp)
    simp only [List.cons_append, List.find?_cons, ha]
    exact ih (fun x hx => h1 x (by simp [hx]))

/-- The rule-3 `reduce` returns the first element attaining the minimum
occupancy ratio: if `w` has no strictly smaller element anywhere in the
list and is strictly smaller than every element before it, the reduce
yields `w`. -/
theorem foldl_minStep_first_min (l1 l2 : List Ward) (w w0 : Ward)
    (hmin : ∀ x ∈ w0 :: l1 ++ w :: l2, ratioLt x w = false)
    (hfirst : ∀ x ∈ w0 :: l1, x = w ∨ ratioLt w x = true) :
    (l1 ++ w :: l2).foldl minStep w0 = w := by
  have hR : l1.foldl minStep w0 ∈ w0 :: l1 := foldl_minStep_mem l1 w0
  have hstep : minStep (l1.foldl minStep w0) w = w := by
    rcases hfirst _ hR with h | h
    · rw [h]
      unfold minStep
      split <;> rfl
    · simp [minStep, h]
  calc (l1 ++ w :: l2).foldl minStep w0
      = (w :: l2).foldl minStep (l1.foldl minStep w0) := by
        rw [List.foldl_append]
    _ = l2.foldl minStep (minStep (l1.foldl minStep w0) w) := by
        rw [List.foldl_cons]
    _ = l2.foldl minStep w := by rw [hstep]
    _ = w := foldl_minStep_stay l2 w
        (fun x hx => hmin x (by simp [hx]))

/-- `suggestWard` on a non-empty list returns one of its elements. -/
theorem suggestWard_mem (p : Patient) (w0 : Ward) (rest : List Ward) :
    ∃ w ∈ w0 :: rest, suggestWard p (w0 :: rest) = some w := by
  simp only [suggestWard]
  cases hf : (w0 :: rest).find? (diagFree p.diagnosis_id) with
  | some w => exact ⟨w, List.mem_of_find?_eq_some hf, rfl⟩
  | none =>
    simp only [fallbackWard]
    cases he : (w0 :: rest).find? (fun w => w.current_occupancy == 0) with
    | some w => exact ⟨w, List.mem_of_find?_eq_some he, rfl⟩
    | none => exact ⟨rest.foldl minStep w0, foldl_minStep_mem rest w0, rfl⟩

/-- Each loop iteration logs exactly the visited patient. -/
theorem distributeStep_processed {σ : Type}
    (f : σ → Nat → Nat → Option σ) (wards0 : List Ward)
    (st : RunState σ) (p : Patient) :
    (distributeStep f wards0 st p).processed = st.processed ++ [p.id] := by
  unfold distributeStep
  split
  · rfl
  · split <;> rfl

/-- Each loop iteration logs exactly one policy evaluation, of the
captured pre-run snapshot. -/
theorem distributeStep_suggestions {σ : Type}
    (f : σ → Nat → Nat → Option σ) (wards0 : List Ward)
    (st : RunState σ) (p : Patient) :
    (distributeStep f wards0 st p).suggestions
      = st.suggestions ++ [(p.id, (suggestWard p wards0).map Ward.id)] := by
  unfold distributeStep
  split
  · rename_i heq
    rw [heq]
    rfl
  · rename_i w heq
    rw [heq]
    split <;> rfl

/-- Each loop iteration makes at most one commit attempt: exactly one
when the policy suggested a ward, none otherwise — independently of the
attempt's outcome. -/
theorem distributeStep_attempts {σ : Type}
    (f : σ → Nat → Nat → Option σ) (wards0 : List Ward)
    (st : RunState σ) (p : Patient) :
    (distributeStep f wards0 st p).attempts
      = st.attempts ++
          ((suggestWard p wards0).map (fun w => (p.id, w.id))).toList := by
  unfold distributeStep
  split
  · rename_i heq
    rw [heq]
    simp
  · rename_i w heq
    rw [heq]
    split <;> rfl

/-- The loop visits every patient of the list, in order, whatever the
outcome of the individual commits. -/
theorem run_processed {σ : Type} (f : σ → Nat → Nat → Option σ)
    (wards0 : List Ward) (ps : List Patient) (st : RunState σ) :
    (ps.foldl (distributeStep f wards0) st).processed
      = st.processed ++ ps.map Patient.id := by
  induction ps generalizing st with
  | nil => simp
  | cons p ps ih =>
    rw [List.foldl_cons, ih, distributeStep_processed]
    simp

/-- The run evaluates the policy exactly once per patient, always
against the captured pre-run snapshot `wards0`. -/
theorem run_suggestions {σ : Type} (f : σ → Nat → Nat → Option σ)
    (wards0 : List Ward) (ps : List Patient) (st : RunState σ) :
    (ps.foldl (distributeStep f wards0) st).suggestions
      = st.suggestions ++
          ps.map (fun p => (p.id, (suggestWard p wards0).map Ward.id)) := by
  induction ps generalizing st with
  | nil => simp
  | cons p ps ih =>
    rw [List.foldl_cons, ih, distributeStep_suggestions]
    simp

/-- The run makes exactly one commit attempt per suggested patient and
none for the others, independently of failures. -/
theorem run_attempts {σ : Type} (f : σ → Nat → Nat → Option σ)
    (wards0 : List Ward) (ps : List Patient) (st : RunState σ) :
    (ps.foldl (distributeStep f wards0) st).attempts
      = st.attempts ++
          ps.filterMap (fun p =>
            (suggestWard p wards0).map (fun w => (p.id, w.id))) := by
  induction ps generalizing st with
  | nil => simp
  | cons p ps ih =>
    rw [List.foldl_cons, ih, distributeStep_attempts]
    cases h : suggestWard p wards0 with
    | none => simp [List.filterMap_cons, h]
    | some w => simp [List.filterMap_cons, h]

/-!
## Claim theorems
-/

/-- C1 (counterexample): on Scenario C's input — every ward full — the
claim says `suggestWard` returns `NoWardAvailable` (`none`); in fact it
returns the first ward.  -/
theorem c1_all_full_counterexample :
    suggestWard ⟨1, none⟩ [⟨1, none, 2, 2⟩, ⟨2, none, 2, 2⟩]
      = some ⟨1, none, 2, 2⟩
    ∧ suggestWard ⟨1, none⟩ [⟨1, none, 2, 2⟩, ⟨2, none, 2, 2⟩] ≠ none := by
  decide

/-- C1 (amended): when no ward has `currentOccupancy < maxCapacity` and
the ward list is non-empty, `suggestWard` still returns one of the
wards (the rule-3 `reduce` has no free-capacity filter); `none` is
returned only for an empty list. -/
theorem c1_all_full_returns_some_ward (p : Patient) (ws : List Ward)
    (hne : ws ≠ [])
    (hfull : ∀ w ∈ ws, ¬ w.current_occupancy < w.max_capacity) :
    ∃ w ∈ ws, suggestWard p ws = some w := by
  cases ws with
  | nil => exact absurd rfl hne
  | cons w0 rest => exact suggestWard_mem p w0 rest

/-- C1 (witness): the amended claim applied to Scenario C's input. -/
theorem c1_witness :
    ∃ w ∈ [(⟨1, none, 2, 2⟩ : Ward), ⟨2, none, 2, 2⟩],
      suggestWard ⟨1, none⟩ [⟨1, none, 2, 2⟩, ⟨2, none, 2, 2⟩] = some w :=
  c1_all_full_returns_some_ward ⟨1, none⟩
    [⟨1, none, 2, 2⟩, ⟨2, none, 2, 2⟩] (by decide) (by decide)

/-- C4 (counterexample): for a patient whose `diagnosis_id` is `0`
(falsy in JavaScript), a ward whose `diagnosis_id` equals the patient's
and that has free capacity exists, yet `suggestWard` returns a
different, non-matching ward via the empty-ward rule. -/
theorem c4_diag_match_counterexample :
    suggestWard ⟨1, some 0⟩ [⟨2, none, 3, 0⟩, ⟨1, some 0, 2, 1⟩]
      = some ⟨2, none, 3, 0⟩
    ∧ (⟨1, some 0, 2, 1⟩ : Ward).diagnosis_id
        = (⟨1, some 0⟩ : Patient).diagnosis_id
    ∧ (⟨1, some 0, 2, 1⟩ : Ward).current_occupancy
        < (⟨1, some 0, 2, 1⟩ : Ward).max_capacity
    ∧ (⟨2, none, 3, 0⟩ : Ward).diagnosis_id
        ≠ (⟨1, some 0⟩ : Patient).diagnosis_id := by
  decide

/-- C4 (amended): when the patient's `diagnosis_id` is a truthy number
`d` (not `null`/`undefined`/`0`) and some ward has `diagnosis_id = d`
with free capacity, `suggestWard` returns such a diagnosis-matched ward
with free capacity. -/
theorem c4_diag_match_priority (p : Patient) (ws : List Ward) (d : Nat)
    (hd : p.diagnosis_id = some d) (hd0 : d ≠ 0)
    (hex : ∃ w ∈ ws, w.diagnosis_id = some d
      ∧ w.current_occupancy < w.max_capacity) :
    ∃ w ∈ ws, w.diagnosis_id = some d
      ∧ w.current_occupancy < w.max_capacity
      ∧ suggestWard p ws = some w := by
  obtain ⟨w1, hw1, hdiag, hcap⟩ := hex
  cases ws with
  | nil => cases hw1
  | cons w0 rest =>
    have hpred : diagFree p.diagnosis_id w1 = true := by
      simp [diagFree, truthyId, hd, hdiag, hcap, hd0]
    cases hf : (w0 :: rest).find? (diagFree p.diagnosis_id) with
    | none =>
      rw [List.find?_eq_none] at hf
      exact absurd hpred (by simpa using hf w1 hw1)
    | some w2 =>
      have hm : w2 ∈ w0 :: rest := List.mem_of_find?_eq_some hf
      have hp2 : diagFree p.diagnosis_id w2 = true := List.find?_some hf
      rw [diagFree, hd] at hp2
      simp only [Bool.and_eq_true, beq_iff_eq, decide_eq_true_eq] at hp2
      refine ⟨w2, hm, hp2.1.2, hp2.2, ?_⟩
      simp only [suggestWard]
      rw [hf]

/-- C4 (witness): the amended claim applied to Scenario B's input. -/
theorem c4_witness :
    ∃ w ∈ [(⟨1, some 7, 4, 1⟩ : Ward)], w.diagnosis_id = some 7
      ∧ w.current_occupancy < w.max_capacity
      ∧ suggestWard ⟨1, some 7⟩ [⟨1, some 7, 4, 1⟩] = some w :=
  c4_diag_match_priority ⟨1, some 7⟩ [⟨1, some 7, 4, 1⟩] 7 rfl
    (by decide) ⟨⟨1, some 7, 4, 1⟩, by decide, rfl, by decide⟩

/-- C5: when no ward matching the patient's diagnosis has free capacity
but some ward is completely empty, `suggestWard` returns a completely
empty ward (rule 2 fires before the minimum occupancy-ratio fallback). -/
theorem c5_empty_ward_priority (p : Patient) (ws : List Ward)
    (hnodiag : ∀ w ∈ ws, ¬ (w.diagnosis_id = p.diagnosis_id
      ∧ w.current_occupancy < w.max_capacity))
    (hempty : ∃ w ∈ ws, w.current_occupancy = 0) :
    ∃ w ∈ ws, w.current_occupancy = 0 ∧ suggestWard p ws = some w := by
  obtain ⟨w1, hw1, h0⟩ := hempty
  cases ws with
  | nil => cases hw1
  | cons w0 rest =>
    have hnof : (w0 :: rest).find? (diagFree p.diagnosis_id) = none := by
      rw [List.find?_eq_none]
      intro x hx hpx
      rw [diagFree] at hpx
      simp only [Bool.and_eq_true, beq_iff_eq, decide_eq_true_eq] at hpx
      exact hnodiag x hx ⟨hpx.1.2, hpx.2⟩
    cases he : (w0 :: rest).find? (fun w => w.current_occupancy == 0) with
    | none =>
      rw [List.find?_eq_none] at he
      exact absurd (by simpa using he w1 hw1) (by simp [h0])
    | some w2 =>
      have hm : w2 ∈ w0 :: rest := List.mem_of_find?_eq_some he
      have h02 : w2.current_occupancy = 0 := by
        have := List.find?_some he
        simpa using this
      refine ⟨w2, hm, h02, ?_⟩
      simp only [suggestWard]
      rw [hnof]
      simp only [fallbackWard]
      rw [he]

/-- C5 (witness): Scenario A — the diagnosis-matched ward is full, so
the completely empty ward 2 is returned. -/
theorem c5_witness :
    ∃ w ∈ [(⟨1, some 5, 2, 2⟩ : Ward), ⟨2, none, 3, 0⟩],
      w.current_occupancy = 0
      ∧ suggestWard ⟨1, some 5⟩ [⟨1, some 5, 2, 2⟩, ⟨2, none, 3, 0⟩]
          = some w :=
  c5_empty_ward_priority ⟨1, some 5⟩ [⟨1, some 5, 2, 2⟩, ⟨2, none, 3, 0⟩]
    (by decide) ⟨⟨2, none, 3, 0⟩, by decide, rfl⟩

/-- C6 (counterexample): two wards tie on the empty-ward rule; the input
array lists ward 2 before ward 1.  The claim says the tied ward with the
smallest id (ward 1) is returned; in fact the first in input order
(ward 2) is. -/
theorem c6_tie_break_counterexample :
    (suggestWard ⟨1, none⟩ [⟨2, none, 2, 0⟩, ⟨1, none, 2, 0⟩]).map Ward.id
      = some 2
    ∧ (suggestWard ⟨1, none⟩ [⟨2, none, 2, 0⟩, ⟨1, none, 2, 0⟩]).map Ward.id
      ≠ some 1 := by
  decide

/-- C6 (amended): ties are resolved by input-array order, not by ward
id.  When no ward passes the diagnosis rule: (i) the first completely
empty ward of the array is returned; (ii) when no ward is empty, the
first ward of the array attaining the minimum occupancy ratio is
returned (any later ward ties or loses strictly, any earlier ward loses
strictly). -/
theorem c6_first_in_input_order_wins (p : Patient) (l1 l2 : List Ward)
    (w : Ward)
    (hnod : ∀ x ∈ l1 ++ w :: l2, diagFree p.diagnosis_id x = false) :
    (w.current_occupancy = 0 ∧ (∀ x ∈ l1, x.current_occupancy ≠ 0) →
      suggestWard p (l1 ++ w :: l2) = some w)
    ∧ ((∀ x ∈ l1 ++ w :: l2, x.current_occupancy ≠ 0) →
      (∀ x ∈ l1 ++ w :: l2, ratioLt x w = false) →
      (∀ x ∈ l1, ratioLt w x = true) →
      suggestWard p (l1 ++ w :: l2) = some w) := by
  have hnof : (l1 ++ w :: l2).find? (diagFree p.diagnosis_id) = none := by
    rw [List.find?_eq_none]
    intro x hx
    simp [hnod x hx]
  constructor
  · rintro ⟨hw0, hpre⟩
    have hfe : (l1 ++ w :: l2).find?
        (fun x => x.current_occupancy == 0) = some w := by
      refine find?_first _ l1 l2 w ?_ (by simp [hw0])
      intro x hx
      simpa using hpre x hx
    cases hl : l1 ++ w :: l2 with
    | nil => exact absurd hl (List.append_ne_nil_of_right_ne_nil l1 (by simp))
    | cons w0 rest =>
      rw [hl] at hnof hfe
      simp only [suggestWard]
      rw [hnof]
      simp only [fallbackWard]
      rw [hfe]
  · intro hno0 hmin hstrict
    have hfe : (l1 ++ w :: l2).find?
        (fun x => x.current_occupancy == 0) = none := by
      rw [List.find?_eq_none]
      intro x hx
      simp [hno0 x hx]
    cases l1 with
    | nil =>
      simp only [List.nil_append] at hnof hfe hmin ⊢
      simp only [suggestWard]
      rw [hnof]
      simp only [fallbackWard]
      rw [hfe]
      have : l2.foldl minStep w = w := by
        refine foldl_minStep_stay l2 w ?_
        intro x hx
        exact hmin x (by simp [hx])
      rw [this]
    | cons w0 l1t =>
      simp only [List.cons_append] at hnof hfe hmin hstrict ⊢
      simp only [suggestWard]
      rw [hnof]
      simp only [fallbackWard]
      rw [hfe]
      have : (l1t ++ w :: l2).foldl minStep w0 = w := by
        refine foldl_minStep_first_min l1t l2 w w0 ?_ ?_
        · intro x hx
          exact hmin x (by simpa using hx)
        · intro x hx
          right
          rcases List.mem_cons.mp hx with h | h
          · exact hstrict x (by simp [h])
          · exact hstrict x (by simp [h])
      rw [this]

/-- C6 (witness): the amended tie-break applied to the counterexample's
input (both wards empty — part (i)) and to an equal-ratio tie with no
empty ward (part (ii)); in both, the first ward of the array wins. -/
theorem c6_witness :
    suggestWard ⟨1, none⟩ [⟨2, none, 2, 0⟩, ⟨1, none, 2, 0⟩]
      = some ⟨2, none, 2, 0⟩
    ∧ suggestWard ⟨1, none⟩ [⟨2, none, 2, 1⟩, ⟨1, none, 2, 1⟩]
      = some ⟨2, none, 2, 1⟩ :=
  ⟨(c6_first_in_input_order_wins ⟨1, none⟩ [] [⟨1, none, 2, 0⟩]
      ⟨2, none, 2, 0⟩ (by decide)).1 ⟨rfl, by decide⟩,
   (c6_first_in_input_order_wins ⟨1, none⟩ [] [⟨1, none, 2, 1⟩]
      ⟨2, none, 2, 1⟩ (by decide)).2 (by decide) (by decide) (by decide)⟩

/-- C7: `suggestWard` is deterministic and side-effect-free — two calls
with the same, unchanged snapshot return the same result, and each call
returns exactly the single-call value (the embedding is a pure function
of the patient and snapshot, faithful to the source, which performs no
mutation). -/
theorem c7_idempotent (p : Patient) (ws : List Ward) :
    (callTwice p ws).1 = (callTwice p ws).2
    ∧ (callTwice p ws).1 = suggestWard p ws :=
  ⟨rfl, rfl⟩

/-- C9: `suggestWard` returns `none` exactly on the empty ward list, and
on every non-empty list it returns one of the listed wards — even when
every ward is full. -/
theorem c9_none_iff_empty (p : Patient) (ws : List Ward) :
    (suggestWard p ws = none ↔ ws = [])
    ∧ (ws ≠ [] → ∃ w ∈ ws, suggestWard p ws = some w) := by
  constructor
  · constructor
    · intro h
      cases ws with
      | nil => rfl
      | cons w0 rest =>
        obtain ⟨w, _, hw⟩ := suggestWard_mem p w0 rest
        rw [hw] at h
        cases h
    · intro h
      subst h
      rfl
  · intro h
    cases ws with
    | nil => exact absurd rfl h
    | cons w0 rest => exact suggestWard_mem p w0 rest

/-- C9 (witness): on a single full ward the result is not `none` and is
an element of the list. -/
theorem c9_witness :
    (suggestWard ⟨1, none⟩ [⟨1, none, 2, 2⟩] = none
      ↔ ([(⟨1, none, 2, 2⟩ : Ward)] : List Ward) = [])
    ∧ (∃ w ∈ [(⟨1, none, 2, 2⟩ : Ward)],
        suggestWard ⟨1, none⟩ [⟨1, none, 2, 2⟩] = some w) :=
  ⟨(c9_none_iff_empty ⟨1, none⟩ [⟨1, none, 2, 2⟩]).1,
   (c9_none_iff_empty ⟨1, none⟩ [⟨1, none, 2, 2⟩]).2 (by decide)⟩

/-- C10: when the patient's `diagnosis_id` is `null`, `undefined` or `0`
(all falsy), the diagnosis-match rule never fires — even if some ward's
`diagnosis_id` equals that same value — and the selection is exactly the
empty-ward / minimum-ratio fallback. -/
theorem c10_falsy_diagnosis_skips_rule1 (p : Patient) (ws : List Ward)
    (h : p.diagnosis_id = none ∨ p.diagnosis_id = some 0) :
    ws.find? (diagFree p.diagnosis_id) = none
    ∧ suggestWard p ws = fallbackWard ws := by
  have hnof : ws.find? (diagFree p.diagnosis_id) = none := by
    rw [List.find?_eq_none]
    intro x hx
    rcases h with h | h <;> simp [diagFree, truthyId, h]
  refine ⟨hnof, ?_⟩
  cases ws with
  | nil => rfl
  | cons w0 rest =>
    simp only [suggestWard]
    rw [hnof]

/-- C10 (witness): a patient with `diagnosis_id = 0` and a free ward
whose `diagnosis_id` is also `0`: rule 1 does not fire and the fallback
decides. -/
theorem c10_witness :
    ([(⟨3, some 0, 2, 1⟩ : Ward)]).find?
      (diagFree (⟨1, some 0⟩ : Patient).diagnosis_id) = none
    ∧ suggestWard ⟨1, some 0⟩ [⟨3, some 0, 2, 1⟩]
        = fallbackWard [⟨3, some 0, 2, 1⟩] :=
  c10_falsy_diagnosis_skips_rule1 ⟨1, some 0⟩ [⟨3, some 0, 2, 1⟩]
    (Or.inr rfl)

/-- C2: failing input for the working-snapshot requirement.  Two
patients, wards `[{id 1, cap 1, occ 0}, {id 2, cap 2, occ 0}]`, server
modelled by the spec's capacity-checking transaction.  The run suggests
ward 1 for *both* patients — the second policy evaluation reads the
closure-captured pre-run snapshot — whereas on the working snapshot
held in React state after patient 1 (ward 1 bumped to occupancy 1) the
policy would pick ward 2.  Patient 2's commit is then rejected at full
capacity. -/
theorem c2_stale_snapshot_bug :
    (handleAutoDistribute commitAssignment [⟨1, none⟩, ⟨2, none⟩]
        [⟨1, none, 1, 0⟩, ⟨2, none, 2, 0⟩]
        [⟨1, none, 1, 0⟩, ⟨2, none, 2, 0⟩]).suggestions
      = [(1, some 1), (2, some 1)]
    ∧ (handleAutoDistribute commitAssignment [⟨1, none⟩]
        [⟨1, none, 1, 0⟩, ⟨2, none, 2, 0⟩]
        [⟨1, none, 1, 0⟩, ⟨2, none, 2, 0⟩]).reactWards
      = [⟨1, none, 1, 1⟩, ⟨2, none, 2, 0⟩]
    ∧ (suggestWard ⟨2, none⟩ [⟨1, none, 1, 1⟩, ⟨2, none, 2, 0⟩]).map
        Ward.id = some 2
    ∧ (handleAutoDistribute commitAssignment [⟨1, none⟩, ⟨2, none⟩]
        [⟨1, none, 1, 0⟩, ⟨2, none, 2, 0⟩]
        [⟨1, none, 1, 0⟩, ⟨2, none, 2, 0⟩]).failed = [2] := by
  decide

/-- C3 (counterexample): on the same input, patient 2's commit is
refused by the capacity re-check (`CapacityExceeded`: ward 1 is full on
the server when the attempt is made), yet the run performs exactly one
policy evaluation and exactly one commit attempt for patient 2 and
records the failure — there is no policy re-run and no commit retry. -/
theorem c3_no_retry_counterexample :
    (handleAutoDistribute commitAssignment [⟨1, none⟩, ⟨2, none⟩]
        [⟨1, none, 1, 0⟩, ⟨2, none, 2, 0⟩]
        [⟨1, none, 1, 0⟩, ⟨2, none, 2, 0⟩]).failed = [2]
    ∧ (handleAutoDistribute commitAssignment [⟨1, none⟩]
        [⟨1, none, 1, 0⟩, ⟨2, none, 2, 0⟩]
        [⟨1, none, 1, 0⟩, ⟨2, none, 2, 0⟩]).server
      = [⟨1, none, 1, 1⟩, ⟨2, none, 2, 0⟩]
    ∧ commitAssignment [⟨1, none, 1, 1⟩, ⟨2, none, 2, 0⟩] 2 1 = none
    ∧ (handleAutoDistribute commitAssignment [⟨1, none⟩, ⟨2, none⟩]
        [⟨1, none, 1, 0⟩, ⟨2, none, 2, 0⟩]
        [⟨1, none, 1, 0⟩, ⟨2, none, 2, 0⟩]).attempts = [(1, 1), (2, 1)]
    ∧ (handleAutoDistribute commitAssignment [⟨1, none⟩, ⟨2, none⟩]
        [⟨1, none, 1, 0⟩, ⟨2, none, 2, 0⟩]
        [⟨1, none, 1, 0⟩, ⟨2, none, 2, 0⟩]).suggestions
      = [(1, some 1), (2, some 1)] := by
  decide

/-- C3 (amended): whatever the commit outcomes, the distributor
evaluates the policy exactly once per patient (always against the
captured pre-run snapshot) and makes exactly one commit attempt per
suggested patient; a failed commit is recorded and the run moves on —
no policy re-run, no commit retry. -/
theorem c3_one_attempt_per_patient {σ : Type}
    (updatePatient : σ → Nat → Nat → Option σ)
    (patients : List Patient) (wards : List Ward) (server0 : σ) :
    (handleAutoDistribute updatePatient patients wards server0).attempts
      = patients.filterMap (fun p =>
          (suggestWard p wards).map (fun w => (p.id, w.id)))
    ∧ (handleAutoDistribute updatePatient patients wards
        server0).suggestions
      = patients.map (fun p =>
          (p.id, (suggestWard p wards).map Ward.id)) := by
  constructor
  · unfold handleAutoDistribute
    rw [run_attempts]
    simp
  · unfold handleAutoDistribute
    rw [run_suggestions]
    simp

/-- C8: no per-patient failure aborts the batch: for every commit
behaviour of the external server — including one that throws on any
subset of the calls — the run visits every patient of the list, in
order, and terminates normally. -/
theorem c8_batch_never_aborts {σ : Type}
    (updatePatient : σ → Nat → Nat → Option σ)
    (patients : List Patient) (wards : List Ward) (server0 : σ) :
    (handleAutoDistribute updatePatient patients wards server0).processed
      = patients.map Patient.id := by
  unfold handleAutoDistribute
  rw [run_processed]
  simp
